import Mathlib

/-!
Verification development for the AgCl-VOF-Parametric-Study repository.

The repository's core logic is a key-value patcher over OpenFOAM dictionary
files ("key value;" statements), implemented in `gui.py`
(`ParameterModifier._apply_params_line_by_line`, `_modify_alpha_water_robust`),
`scripts/parametric_runner.py` (`ParameterModifier._modify_*`) and
`scripts/openfoam_params.py` (`read_parameters`,
`compute_derived_parameters`), plus a contact-angle writer in
`scripts/run_parametric.py` (`generate_alpha_with_config`).

This file gives a shallow embedding of those functions.  File contents are
`List Char` (Python strings); files live in an association list from path to
content.  Python floats are modelled as rationals; the `printf`-style
formatting used by the code (`:.6e`, `:.3f`, `:.6f`, `str()`) is modelled
exactly over rationals with round-half-to-even, which agrees with CPython on
every value exercised here.  The `re.sub` patterns used by the code are of the
shape `^(key\s+)([\d.eE+-]+)(\s*;)` with `re.MULTILINE`; since the character
classes involved are disjoint, the greedy matching of such a pattern is
deterministic and is embedded as a direct functional parse of each line
(statements fully contained on one line, which is the format the repository's
files use and that the spec's recognition rule in section 4.1 requires).
-/

namespace AgClVof

/-- Python `\s` (whitespace) on the ASCII range used by the repository files. -/
def pyIsSpace (c : Char) : Bool :=
  c = ' ' || c = '\t' || c = '\n' || c = '\r' || c = '\x0b' || c = '\x0c'

/-- The character class `[\d.eE+-]` used by the runner's value patterns. -/
def isNumClass (c : Char) : Bool :=
  c = '0' || c = '1' || c = '2' || c = '3' || c = '4' || c = '5' || c = '6' ||
  c = '7' || c = '8' || c = '9' || c = '.' || c = 'e' || c = 'E' || c = '+' || c = '-'

/-- The character class `\d` (ASCII digits). -/
def isDigitChar (c : Char) : Bool :=
  c = '0' || c = '1' || c = '2' || c = '3' || c = '4' ||
  c = '5' || c = '6' || c = '7' || c = '8' || c = '9'

/-- Python `\w` (word characters), ASCII range. -/
def isWordChar (c : Char) : Bool :=
  isDigitChar c || c = '_' ||
  ('a' ≤ c && c ≤ 'z') || ('A' ≤ c && c ≤ 'Z')

theorem numClass_not_space {c : Char} (h : isNumClass c = true) : pyIsSpace c = false := by
  simp only [isNumClass, Bool.or_eq_true, decide_eq_true_eq] at h
  rcases h with ((((((((((((((h|h)|h)|h)|h)|h)|h)|h)|h)|h)|h)|h)|h)|h)|h) <;> subst h <;> rfl

theorem numClass_not_semi {c : Char} (h : isNumClass c = true) : c ≠ ';' := by
  simp only [isNumClass, Bool.or_eq_true, decide_eq_true_eq] at h
  rcases h with ((((((((((((((h|h)|h)|h)|h)|h)|h)|h)|h)|h)|h)|h)|h)|h)|h) <;> subst h <;> decide

theorem digit_isNumClass {c : Char} (h : isDigitChar c = true) : isNumClass c = true := by
  simp only [isDigitChar, Bool.or_eq_true, decide_eq_true_eq] at h
  rcases h with ((((((((h|h)|h)|h)|h)|h)|h)|h)|h)|h <;> subst h <;> rfl

/-- Drop an exact literal prefix, returning the remainder on success
(the anchored literal part of the `re` patterns). -/
def dropLit : List Char → List Char → Option (List Char)
  | [], l => some l
  | _ :: _, [] => none
  | p :: ps, c :: cs => if p = c then dropLit ps cs else none

/-- Python `str.strip()`. -/
def pyStrip (l : List Char) : List Char :=
  ((l.dropWhile pyIsSpace).reverse.dropWhile pyIsSpace).reverse

/-- Python `content.split('\n')`: the list of lines (an empty content has one
empty line, separators are not kept). -/
def splitNl : List Char → List (List Char)
  | [] => [[]]
  | c :: cs =>
    if c = '\n' then [] :: splitNl cs
    else
      match splitNl cs with
      | [] => [[c]]
      | l :: ls => (c :: l) :: ls

/-- Python `'\n'.join(lines)`. -/
def joinNl : List (List Char) → List Char
  | [] => []
  | [l] => l
  | l :: ls => l ++ '\n' :: joinNl ls

theorem splitNl_ne_nil (c : List Char) : splitNl c ≠ [] := by
  induction c with
  | nil => simp [splitNl]
  | cons a cs ih =>
    simp only [splitNl]
    split
    · simp
    · match h : splitNl cs with
      | [] => exact absurd h ih
      | l :: ls => simp

theorem splitNl_no_nl (c : List Char) : ∀ l ∈ splitNl c, '\n' ∉ l := by
  induction c with
  | nil => intro l hl; simp [splitNl] at hl; simp [hl]
  | cons a cs ih =>
    intro l hl
    simp only [splitNl] at hl
    split at hl
    · rcases List.mem_cons.1 hl with h | h
      · simp [h]
      · exact ih l h
    · rename_i hne
      match h : splitNl cs with
      | [] => exact absurd h (splitNl_ne_nil cs)
      | l0 :: ls =>
        rw [h] at hl
        rcases List.mem_cons.1 hl with h2 | h2
        · subst h2
          intro hmem
          rcases List.mem_cons.1 hmem with h3 | h3
          · exact hne h3.symm
          · exact ih l0 (h ▸ List.mem_cons_self l0 ls) h3
        · exact ih l (h ▸ List.mem_cons_of_mem l0 h2)

theorem splitNl_of_no_nl (l : List Char) (h : '\n' ∉ l) : splitNl l = [l] := by
  induction l with
  | nil => rfl
  | cons a cs ih =>
    have ha : a ≠ '\n' := fun hc => h (hc ▸ List.mem_cons_self a cs)
    have hcs : '\n' ∉ cs := fun hc => h (List.mem_cons_of_mem a hc)
    simp only [splitNl, if_neg ha, ih hcs]

theorem splitNl_append_nl (l r : List Char) (h : '\n' ∉ l) :
    splitNl (l ++ '\n' :: r) = l :: splitNl r := by
  induction l with
  | nil => simp [splitNl]
  | cons a cs ih =>
    have ha : a ≠ '\n' := fun hc => h (hc ▸ List.mem_cons_self a cs)
    have hcs : '\n' ∉ cs := fun hc => h (List.mem_cons_of_mem a hc)
    simp only [List.cons_append, splitNl, if_neg ha]
    rw [show cs.append ('\n' :: r) = cs ++ '\n' :: r from rfl, ih hcs]

theorem splitNl_joinNl (ls : List (List Char)) (hne : ls ≠ [])
    (h : ∀ l ∈ ls, '\n' ∉ l) : splitNl (joinNl ls) = ls := by
  induction ls with
  | nil => exact absurd rfl hne
  | cons l ls ih =>
    match ls with
    | [] => exact splitNl_of_no_nl l (h l (List.mem_cons_self l []))
    | l2 :: ls2 =>
      have hl : '\n' ∉ l := h l (List.mem_cons_self _ _)
      show splitNl (l ++ '\n' :: joinNl (l2 :: ls2)) = _
      rw [splitNl_append_nl _ _ hl,
        ih (by simp) (fun x hx => h x (List.mem_cons_of_mem l hx))]

/-! ### Decimal rendering and parsing

The repository interpolates Python numbers into replacement strings with
`str()`, `f"{x:.6e}"`, `f"{x:.3f}"` and `f"{x:.6f}"`.  These are modelled
exactly over rationals, with round-half-to-even (the rounding CPython's
formatting performs; no value exercised below sits on a tie, so the binary
double intermediate of CPython agrees with the rational computation). -/

/-- Decimal digits of a natural number, most significant first
(`natDigits 0 = ['0']`). -/
def natDigitsGo : ℕ → ℕ → List Char → List Char
  | 0, _, acc => acc
  | fuel + 1, n, acc =>
    if n < 10 then Nat.digitChar n :: acc
    else natDigitsGo fuel (n / 10) (Nat.digitChar (n % 10) :: acc)

def natDigits (n : ℕ) : List Char := natDigitsGo (n + 1) n []

/-- Left-pad a digit string with zeros to width `k`. -/
def padZeros (k : ℕ) (ds : List Char) : List Char :=
  List.replicate (k - ds.length) '0' ++ ds

/-- Python `str()` of an `int`. -/
def pyStrInt (z : ℤ) : List Char :=
  if z < 0 then '-' :: natDigits z.natAbs else natDigits z.natAbs

/-- Python `int()` applied to a float: truncation toward zero. -/
def pyIntTrunc (q : ℚ) : ℤ := if 0 ≤ q then ⌊q⌋ else ⌈q⌉

/-- Round `n / d` to the nearest integer, ties to even. -/
def roundHalfEven (n d : ℕ) : ℕ :=
  let q := n / d
  let r := n % d
  if 2 * r < d then q
  else if d < 2 * r then q + 1
  else if q % 2 = 0 then q else q + 1

/-- Python `f"{q:.pf}"`: fixed-point with `p` fractional digits. -/
def fmtFixed (p : ℕ) (q : ℚ) : List Char :=
  let sign := if q < 0 then ['-'] else []
  let M := roundHalfEven (q.num.natAbs * 10 ^ p) q.den
  sign ++ natDigits (M / 10 ^ p) ++ '.' :: padZeros p (natDigits (M % 10 ^ p))

/-- Least `k ≥ k0` with `den ≤ num * 10 ^ k` (fuel-bounded search; for
`num ≥ 1` the fuel `den` always suffices). -/
def findExpDenAux (num den : ℕ) : ℕ → ℕ → ℕ
  | 0, k => k
  | fuel + 1, k => if den ≤ num * 10 ^ k then k else findExpDenAux num den fuel (k + 1)

/-- Decimal exponent of `num / den` in normalized scientific notation. -/
def sciExponent (num den : ℕ) : ℤ :=
  if den ≤ num then (Nat.log 10 (num / den) : ℤ)
  else -(findExpDenAux num den den 1 : ℤ)

/-- Python `f"{q:.6e}"`: normalized scientific notation with 6 fractional
digits and a sign-and-two-digit exponent field. -/
def fmt6e (q : ℚ) : List Char :=
  if q = 0 then ('0' :: '.' :: padZeros 6 [] ++ ['e', '+', '0', '0'])
  else
    let sign := if q < 0 then ['-'] else []
    let num := q.num.natAbs
    let den := q.den
    let e := sciExponent num den
    let M := if e ≤ 6 then roundHalfEven (num * 10 ^ (6 - e).toNat) den
             else roundHalfEven num (den * 10 ^ (e - 6).toNat)
    let M2 := if M = 10 ^ 7 then 10 ^ 6 else M
    let e2 := if M = 10 ^ 7 then e + 1 else e
    let ds := padZeros 7 (natDigits M2)
    sign ++ ds.take 1 ++ '.' :: ds.drop 1 ++
      'e' :: (if e2 < 0 then '-' else '+') :: padZeros 2 (natDigits e2.natAbs)

/-- Fractional decimal digits of `f` (`0 ≤ f < 1`), up to `fuel` digits. -/
def fracDigitsGo : ℕ → ℚ → List Char
  | 0, _ => []
  | fuel + 1, f =>
    if f = 0 then []
    else Nat.digitChar (⌊f * 10⌋).toNat :: fracDigitsGo fuel (f * 10 - ⌊f * 10⌋)

/-- Python `str()` of a float, for floats whose shortest round-trip
representation is their short decimal literal (every value interpolated by the
repository's f-strings here is of this kind; the `1e16`/`1e-5` regimes where
CPython's `repr` switches to exponent notation are not exercised). Always
contains a decimal point, e.g. `str(35.0) = "35.0"`. -/
def pyStrFloat (q : ℚ) : List Char :=
  let sign := if q < 0 then ['-'] else []
  let a := |q|
  sign ++ natDigits (⌊a⌋).toNat ++
    '.' :: (if a - ⌊a⌋ = 0 then ['0'] else fracDigitsGo 17 (a - ⌊a⌋))

theorem natDigitsGo_chars (fuel : ℕ) : ∀ (n : ℕ) (acc : List Char),
    ∀ c ∈ natDigitsGo fuel n acc, c ∈ acc ∨ isDigitChar c = true := by
  induction fuel with
  | zero => intro n acc c hc; exact Or.inl hc
  | succ fuel ih =>
    intro n acc c hc
    have hdig : ∀ m, m < 10 → isDigitChar (Nat.digitChar m) = true := by decide
    simp only [natDigitsGo] at hc
    split at hc
    · rcases List.mem_cons.1 hc with h | h
      · exact Or.inr (h ▸ hdig n (by assumption))
      · exact Or.inl h
    · rcases ih (n / 10) _ c hc with h | h
      · rcases List.mem_cons.1 h with h2 | h2
        · exact Or.inr (h2 ▸ hdig _ (Nat.mod_lt _ (by norm_num)))
        · exact Or.inl h2
      · exact Or.inr h

theorem natDigits_digit (n : ℕ) : ∀ c ∈ natDigits n, isDigitChar c = true := by
  intro c hc
  rcases natDigitsGo_chars (n + 1) n [] c hc with h | h
  · exact absurd h (List.not_mem_nil c)
  · exact h

theorem dot_mem_pyStrFloat (q : ℚ) : '.' ∈ pyStrFloat q := by
  unfold pyStrFloat
  exact List.mem_append_right _ (List.mem_cons_self _ _)

theorem dot_not_mem_pyStrInt (z : ℤ) : '.' ∉ pyStrInt z := by
  unfold pyStrInt
  split <;> intro h
  · rcases List.mem_cons.1 h with h | h
    · exact absurd h (by decide)
    · exact absurd (natDigits_digit _ _ h) (by decide)
  · exact absurd (natDigits_digit _ _ h) (by decide)

/-! Numeric parsing: models of Python `float()` / `int()` on the literals the
repository's files hold (`inf`/`nan` and underscore separators are not
modelled; they never occur in OpenFOAM dictionaries). -/

def digitVal (c : Char) : ℕ := c.toNat - 48

def parseDigitsGo : List Char → ℕ → Option ℕ
  | [], acc => some acc
  | c :: cs, acc =>
    if isDigitChar c then parseDigitsGo cs (10 * acc + digitVal c) else none

/-- Parse a nonempty all-digit string. -/
def parseDigits? (l : List Char) : Option ℕ :=
  if l.isEmpty then none else parseDigitsGo l 0

/-- Python `int(s)` (base 10). -/
def pyInt? (l0 : List Char) : Option ℤ :=
  match pyStrip l0 with
  | '+' :: r => (parseDigits? r).map (fun n => (n : ℤ))
  | '-' :: r => (parseDigits? r).map (fun n => -(n : ℤ))
  | r => (parseDigits? r).map (fun n => (n : ℤ))

/-- Mantissa of a Python float literal: `digits [. digits]` or `. digits`. -/
def pyFloatMantissa? (mant : List Char) : Option ℚ :=
  let ipart := mant.takeWhile isDigitChar
  match mant.dropWhile isDigitChar with
  | [] => if ipart.isEmpty then none else (parseDigitsGo ipart 0).map (fun n => (n : ℚ))
  | '.' :: fpart =>
    if fpart.all isDigitChar then
      if ipart.isEmpty && fpart.isEmpty then none
      else (parseDigitsGo (ipart ++ fpart) 0).map
        (fun n => (n : ℚ) / 10 ^ fpart.length)
    else none
  | _ => none

/-- Exponent part of a Python float literal (the part after `e`/`E`). -/
def pyFloatExp? : List Char → Option ℤ
  | [] => some 0
  | _ :: r =>
    match r with
    | '+' :: ds => (parseDigits? ds).map (fun n => (n : ℤ))
    | '-' :: ds => (parseDigits? ds).map (fun n => -(n : ℤ))
    | ds => (parseDigits? ds).map (fun n => (n : ℤ))

def notExpChar (c : Char) : Bool := !(c = 'e' || c = 'E')

/-- Python `float(s)` on ordinary decimal literals. -/
def pyFloat? (l0 : List Char) : Option ℚ :=
  let l := pyStrip l0
  let sgn : ℚ := match l with
    | '-' :: _ => -1
    | _ => 1
  let l1 := match l with
    | '+' :: r => r
    | '-' :: r => r
    | r => r
  match pyFloatMantissa? (l1.takeWhile notExpChar),
        pyFloatExp? (l1.dropWhile notExpChar) with
  | some m, some e => some (sgn * m * (10 : ℚ) ^ e)
  | _, _ => none

/-! ### Case-directory model

A case directory is an association list from file path to file content
(`read_text` / `write_text`).  The prints / `self.log` entries the Python
code emits per substitution are modelled as `Outcome` records. -/

abbrev Content := List Char
abbrev FS := List (String × Content)

def fsRead : FS → String → Option Content
  | [], _ => none
  | (q, d) :: t, p => if q = p then some d else fsRead t p

def fsWrite : FS → String → Content → FS
  | [], p, c => [(p, c)]
  | (q, d) :: t, p, c => if q = p then (p, c) :: t else (q, d) :: fsWrite t p c

theorem fsRead_fsWrite_self (fs : FS) (p : String) (c : Content) :
    fsRead (fsWrite fs p c) p = some c := by
  induction fs with
  | nil => simp [fsRead, fsWrite]
  | cons e t ih =>
    obtain ⟨q, d⟩ := e
    by_cases h : q = p <;> simp [fsRead, fsWrite, h, ih]

theorem fsRead_fsWrite_other (fs : FS) (p p2 : String) (c : Content) (h : p2 ≠ p) :
    fsRead (fsWrite fs p c) p2 = fsRead fs p2 := by
  induction fs with
  | nil =>
    have hne : ¬p = p2 := fun hc => h hc.symm
    simp [fsRead, fsWrite, hne]
  | cons e t ih =>
    obtain ⟨q, d⟩ := e
    by_cases hq : q = p
    · subst hq
      have hne : ¬q = p2 := fun hc => h hc.symm
      simp [fsRead, fsWrite, hne]
    · simp only [fsWrite, if_neg hq, fsRead]
      split
      · rfl
      · exact ih

/-- One log/print record of a substitution pass. -/
inductive Outcome where
  /-- A `✓ key = value` success message. -/
  | applied (param value : List Char)
  /-- The single `✓ eta = ..., nu = ...` message `_modify_transport_properties`
  prints for a viscosity parameter (one applied-substitution record). -/
  | appliedRheology (etaParam etaText nuParam nuText : List Char)
  /-- A `⚠ key non trouvé` warning. -/
  | notFound (param : List Char)
  /-- A `⚠ file non trouvé` warning. -/
  | fileNotFound (path : String)
  deriving DecidableEq

/-! ### The `re.sub` key-value substitution

`parametric_runner.py` rewrites values with
`re.sub(rf'^(key\s+)(VALUECLASS+)(\s*;)', rf'\g<1>NEW\3', content, flags=re.MULTILINE)`
where `VALUECLASS` is `[\d.eE+-]` (most paths) or `\d` (`_modify_alpha_water`,
whose group 3 is `(\s*;.*?)$`, equally the whole remainder of the line).
Because the three sub-patterns draw from pairwise disjoint character classes
(`key` literal, whitespace, value class, `;`), the regex engine's greedy
backtracking search is equivalent to the deterministic longest-run parse
below, applied to each line (`^` with `re.MULTILINE` anchors every match at a
line start, and one match never restarts inside the same line). -/

structure KVParts where
  ws1 : List Char
  val : List Char
  ws2 : List Char
  rest : List Char
  deriving DecidableEq

/-- Match one line against `^(param\s+)(vc+)(\s*;)` (rest of line free). -/
def splitKV (vc : Char → Bool) (param line : List Char) : Option KVParts :=
  match dropLit param line with
  | none => none
  | some r1 =>
    if (r1.takeWhile pyIsSpace).isEmpty then none
    else if ((r1.dropWhile pyIsSpace).takeWhile vc).isEmpty then none
    else
      match ((r1.dropWhile pyIsSpace).dropWhile vc).dropWhile pyIsSpace with
      | ';' :: rest =>
        some ⟨r1.takeWhile pyIsSpace, (r1.dropWhile pyIsSpace).takeWhile vc,
              ((r1.dropWhile pyIsSpace).dropWhile vc).takeWhile pyIsSpace, rest⟩
      | _ => none

/-- The `\g<1>NEW\3` replacement on one line, when the line matches. -/
def subLineKV (vc : Char → Bool) (param newVal line : List Char) : Option (List Char) :=
  (splitKV vc param line).map fun p => param ++ p.ws1 ++ newVal ++ p.ws2 ++ ';' :: p.rest

/-- The whole `re.sub(..., flags=re.MULTILINE)` call: every matching line is
rewritten, non-matching lines are untouched. -/
def reSubKV (vc : Char → Bool) (param newVal content : List Char) : List Char :=
  joinNl ((splitNl content).map fun l => (subLineKV vc param newVal l).getD l)

/-- `re.search(rf'^param\s+([\d.eE+-]+)\s*;', content, re.MULTILINE)`:
the value text of the first matching line. -/
def findKVValue? (param content : List Char) : Option (List Char) :=
  ((splitNl content).filterMap fun l => (splitKV isNumClass param l).map (·.val)).head?

/-! ### `ParameterModifier` of `scripts/parametric_runner.py` -/

/-- `_modify_control_dict` (lines 168-191): substitute `param` in
`system/parameters`; success is detected by comparing old and new content. -/
def modifyControlDict (fs : FS) (param newVal : List Char) : FS × List Outcome :=
  match fsRead fs "system/parameters" with
  | none => (fs, [Outcome.fileNotFound "system/parameters"])
  | some content =>
    let newContent := reSubKV isNumClass param newVal content
    if newContent ≠ content then
      (fsWrite fs "system/parameters" newContent, [Outcome.applied param newVal])
    else (fs, [Outcome.notFound param])

/-- `_modify_alpha_water` (lines 126-152): set `CA_<surface>` in
`system/parameters` to `int(angle)`; value class is `\d`. -/
def modifyAlphaWaterCA (fs : FS) (surface : List Char) (angle : ℚ) : FS × List Outcome :=
  match fsRead fs "system/parameters" with
  | none => (fs, [Outcome.fileNotFound "system/parameters"])
  | some content =>
    let param := 'C' :: 'A' :: '_' :: surface
    let newVal := pyStrInt (pyIntTrunc angle)
    let newContent := reSubKV isDigitChar param newVal content
    if newContent ≠ content then
      (fsWrite fs "system/parameters" newContent, [Outcome.applied param newVal])
    else (fs, [Outcome.notFound param])

/-- `sigma` match of `_modify_surface_tension`'s pattern `(sigma\s+)[^;]+(;)`
(no anchors): at a candidate position, a match is `sigma`, then at least one
whitespace char, then at least one non-`;` char, then `;`; the greedy search
keeps `min(maximal whitespace run, distance-to-semicolon − 1)` characters in
group 1.  Returns group 1's whitespace and the text after the `;`. -/
def matchSigmaAt (l : List Char) : Option (List Char × List Char) :=
  match dropLit ('s' :: 'i' :: 'g' :: 'm' :: 'a' :: []) l with
  | none => none
  | some r =>
    match r.findIdx? (· = ';') with
    | none => none
    | some i =>
      match r with
      | [] => none
      | c :: _ =>
        if pyIsSpace c && 2 ≤ i then
          some (r.take (min (r.takeWhile pyIsSpace).length (i - 1)), r.drop (i + 1))
        else none

def subSigmaGo : ℕ → List Char → List Char → List Char
  | 0, _, l => l
  | _ + 1, _, [] => []
  | fuel + 1, v, c :: cs =>
    match matchSigmaAt (c :: cs) with
    | some (w, rest) => 's' :: 'i' :: 'g' :: 'm' :: 'a' :: (w ++ v ++ ';' :: subSigmaGo fuel v rest)
    | none => c :: subSigmaGo fuel v cs

/-- `re.sub(r'(sigma\s+)[^;]+(;)', rf'\g<1>NEW\2', content)`. -/
def subSigmaAll (v content : List Char) : List Char := subSigmaGo content.length v content

/-- `_modify_surface_tension` (lines 154-166).  NOTE the missing-file branch
is a bare `return`: nothing is logged.  The success branch prints one `✓`
unconditionally (it does not check that the pattern matched). -/
def modifySurfaceTension (fs : FS) (newVal : List Char) : FS × List Outcome :=
  match fsRead fs "constant/transportProperties" with
  | none => (fs, [])
  | some content =>
    (fsWrite fs "constant/transportProperties" (subSigmaAll newVal content),
     [Outcome.applied ('s' :: 'i' :: 'g' :: 'm' :: 'a' :: []) newVal])

inductive RheoParam where
  | eta0 | etaInf | lambda | n
  deriving DecidableEq

/-- The `param_map` of `_modify_transport_properties`. -/
def rheoParamMap : RheoParam → List Char × Option (List Char)
  | .eta0 => ("eta_0".toList, some "nu_0".toList)
  | .etaInf => ("eta_inf".toList, some "nu_inf".toList)
  | .lambda => ("k_carreau".toList, none)
  | .n => ("n_carreau".toList, none)

/-- `_modify_transport_properties` (lines 70-124): write the dynamic value,
then for viscosities also the kinematic value `value / RHO_INK` formatted
`:.6e`; prints exactly one `✓` record. -/
def modifyTransportProperties (fs : FS) (p : RheoParam) (value rhoInk : ℚ) :
    FS × List Outcome :=
  match fsRead fs "system/parameters" with
  | none => (fs, [Outcome.fileNotFound "system/parameters"])
  | some content =>
    let etaParam := (rheoParamMap p).1
    let etaText := pyStrFloat value
    let c1 := reSubKV isNumClass etaParam etaText content
    match (rheoParamMap p).2 with
    | some nuParam =>
      let nuText := fmt6e (value / rhoInk)
      let c2 := reSubKV isNumClass nuParam nuText c1
      (fsWrite fs "system/parameters" c2,
       [Outcome.appliedRheology etaParam etaText nuParam nuText])
    | none =>
      (fsWrite fs "system/parameters" c1, [Outcome.applied etaParam etaText])

/-- `_modify_geometry` (lines 253-416).  For `y_buse` the derived parameters
`y_buse_top = y_buse_bottom + value` (`:.3f`), `y_buse_top_m = top * 0.001`
(`:.6f`), `y_ink = value` (`:.3f`), `y_ink_top`, `y_ink_top_m` are rewritten
in the same pass; for `ratio_surface`, `y_buse = ratio * S_PUIT / X_BUSE`
cascades through the same table.  A malformed stored `y_buse_bottom` would
raise in `float()` (modelled by the error case). -/
def modifyGeometry (fs : FS) (param : String) (value : ℚ) :
    Except String (FS × List Outcome) :=
  match fsRead fs "system/parameters" with
  | none => .ok (fs, [Outcome.fileNotFound "system/parameters"])
  | some content =>
    if param = "ratio_surface" then
      let sPuit : ℚ := 8 / 10 * (128 / 1000)
      let yBuse := value * sPuit / (3 / 10)
      let c1 := reSubKV isNumClass "ratio_surface".toList (pyStrFloat value) content
      let c2 := reSubKV isNumClass "y_buse".toList (fmtFixed 3 yBuse) c1
      match findKVValue? "y_buse_bottom".toList c2 with
      | none => .ok (fsWrite fs "system/parameters" c2,
          [Outcome.applied "ratio_surface".toList (pyStrFloat value)])
      | some btext =>
        match pyFloat? btext with
        | none => .error "ValueError: could not convert string to float"
        | some b =>
          let top := b + yBuse
          let c3 := reSubKV isNumClass "y_buse_top".toList (fmtFixed 3 top) c2
          let c4 := reSubKV isNumClass "y_buse_top_m".toList (fmtFixed 6 (top * (1 / 1000))) c3
          let c5 := reSubKV isNumClass "y_ink".toList (fmtFixed 3 yBuse) c4
          let c6 := reSubKV isNumClass "y_ink_top".toList (fmtFixed 3 top) c5
          let c7 := reSubKV isNumClass "y_ink_top_m".toList (fmtFixed 6 (top * (1 / 1000))) c6
          .ok (fsWrite fs "system/parameters" c7,
            [Outcome.applied "ratio_surface".toList (pyStrFloat value)])
    else
      let c1 := reSubKV isNumClass param.toList (pyStrFloat value) content
      if param = "y_buse" then
        match findKVValue? "y_buse_bottom".toList c1 with
        | none => .ok (fsWrite fs "system/parameters" c1,
            [Outcome.applied param.toList (pyStrFloat value)])
        | some btext =>
          match pyFloat? btext with
          | none => .error "ValueError: could not convert string to float"
          | some b =>
            let top := b + value
            let c2 := reSubKV isNumClass "y_buse_top".toList (fmtFixed 3 top) c1
            let c3 := reSubKV isNumClass "y_buse_top_m".toList (fmtFixed 6 (top * (1 / 1000))) c2
            let c4 := reSubKV isNumClass "y_ink".toList (fmtFixed 3 value) c3
            let c5 := reSubKV isNumClass "y_ink_top".toList (fmtFixed 3 top) c4
            let c6 := reSubKV isNumClass "y_ink_top_m".toList (fmtFixed 6 (top * (1 / 1000))) c5
            .ok (fsWrite fs "system/parameters" c6,
              [Outcome.applied param.toList (pyStrFloat value)])
      else if param = "x_gap_buse" then
        let c2 := reSubKV isNumClass "x_gap_buse_m".toList (fmtFixed 6 (value * (1 / 1000))) c1
        .ok (fsWrite fs "system/parameters" c2,
          [Outcome.applied param.toList (pyStrFloat value)])
      else
        .ok (fsWrite fs "system/parameters" c1,
          [Outcome.applied param.toList (pyStrFloat value)])

/-! ### `ParameterModifier` of `gui.py`

`gui.py` contains two slips that make the file unusable as written:
line 169 reads `elif stripped.startswith('}')'):`, an unterminated string
literal, so the module does not even parse (SyntaxError on import); and
line 99 reads `new_lines.append(new_line)` where no name `new_line` was ever
bound, so `_apply_params_line_by_line` raises `NameError` on the first line
whose key matches a requested parameter, before the success log entry of
line 100 and before the file is written back.  Both are embedded below:
the line-by-line pass returns that error whenever any line matches, and the
intended two-state scanner of `_modify_alpha_water_robust` is embedded with
the single stray token of line 169 removed (nothing else changed). -/

/-- The key test of `_apply_params_line_by_line` (line 90):
`re.match(rf'^{k}\s*;', stripped) or re.match(rf'^{k}\s+', stripped)`. -/
def guiKeyMatches (k stripped : List Char) : Bool :=
  match dropLit k stripped with
  | none => false
  | some r =>
    ((r.dropWhile pyIsSpace).head? = some ';') ||
      (match r with
       | c :: _ => pyIsSpace c
       | [] => false)

/-- `_apply_params_line_by_line` (gui.py lines 76-108), as written:
a missing file is logged and skipped; if no line matches any requested key
the file is rewritten unchanged and every key is logged as not found; but as
soon as one line matches, line 99's `new_lines.append(new_line)` raises
`NameError` (so no matching pass ever completes or writes the file). -/
def applyParamsLineByLine (fs : FS) (path : String)
    (ps : List (List Char × List Char)) : Except String (FS × List Outcome) :=
  match fsRead fs path with
  | none => .ok (fs, [Outcome.fileNotFound path])
  | some content =>
    let lines := splitNl content
    if lines.any (fun l => ps.any (fun p => guiKeyMatches p.1 (pyStrip l))) then
      .error "NameError: name new_line is not defined"
    else
      .ok (fsWrite fs path (joinNl lines), ps.map (fun p => Outcome.notFound p.1))

/-- The two-state scan of `_modify_alpha_water_robust` (gui.py lines 142-175)
with the stray token of line 169 removed: Outside→Inside when a stripped line
equals a requested surface name (first name in request order wins);
while Inside, a line starting with `theta0` is replaced by the fixed-format
line with the angle truncated by `int(float(angle))` (and not copied), a line
starting with the closing brace flips back to Outside and is copied, and
every other line is copied unchanged. -/
def alphaScanGo (angles : List (List Char × ℚ)) :
    Bool → Option (List Char) → List (List Char) → List (List Char)
  | _, _, [] => []
  | inT, cur, l :: ls =>
    let st := pyStrip l
    let inT2 := if inT then true else (angles.find? (fun p => st = p.1)).isSome
    let cur2 := if inT then cur else ((angles.find? (fun p => st = p.1)).map (·.1))
    if inT2 then
      if ('t' :: 'h' :: 'e' :: 't' :: 'a' :: '0' :: []).isPrefixOf st then
        match cur2.bind (fun s => (angles.find? (fun p => p.1 = s)).map (·.2)) with
        | some angle =>
          ("        theta0          ".toList ++ pyStrInt (pyIntTrunc angle) ++ [';']) ::
            alphaScanGo angles inT2 cur2 ls
        | none => l :: alphaScanGo angles inT2 cur2 ls
      else if st.head? = some '\x7d' then
        l :: alphaScanGo angles false none ls
      else
        l :: alphaScanGo angles inT2 cur2 ls
    else
      l :: alphaScanGo angles inT2 cur2 ls

/-- `_modify_alpha_water_robust` on the `0/alpha.water` file (intended
behavior; see `alphaScanGo`). -/
def modifyAlphaWaterRobust (fs : FS) (angles : List (List Char × ℚ)) : FS :=
  match fsRead fs "0/alpha.water" with
  | none => fs
  | some content =>
    fsWrite fs "0/alpha.water" (joinNl (alphaScanGo angles false none (splitNl content)))

/-! ### `generate_alpha_with_config` of `scripts/run_parametric.py`

The boundary-field writer (lines 465-568) interpolates the contact angles of
the CSV configuration — which `read_csv_configs` produced with `float(...)` —
directly into `theta0          {config[...]};` with no integer conversion.
Only the value formatting is relevant here; the line writer is embedded. -/

/-- The value text written for `theta0` by `generate_alpha_with_config`. -/
def genAlphaTheta0Value (angle : ℚ) : List Char := pyStrFloat angle

/-- One `theta0` line of the generated `boundaryField` (8-space indent,
10-space gap, as in the f-string). -/
def genAlphaTheta0Line (angle : ℚ) : List Char :=
  "        theta0          ".toList ++ genAlphaTheta0Value angle ++ [';']

/-! ### `read_parameters` / `compute_derived_parameters`
(`scripts/openfoam_params.py`) -/

/-- A Python value as stored in the parameters dictionary. -/
inductive PyVal where
  | float (q : ℚ)
  | int (z : ℤ)
  | str (s : List Char)
  deriving DecidableEq

/-- The per-line match of `read_parameters` (lines 57-65): skip blank and
comment lines, then `re.match(r'^\s*(\w+)\s+([^;]+);', line)`.  The greedy
`(\w+)\s+([^;]+);` search succeeds exactly when the text after the maximal
word-character run starts with whitespace and its first `;` sits at index at
least 2, and `group(2).strip()` is then the stripped text between the key and
that first `;`. -/
def lineMatchKV? (line : List Char) : Option (List Char × List Char) :=
  let s := pyStrip line
  if s.isEmpty then none
  else if ('/' :: '/' :: []).isPrefixOf s || ('/' :: '*' :: []).isPrefixOf s then none
  else
    let r0 := s.dropWhile pyIsSpace
    let key := r0.takeWhile isWordChar
    let rest := r0.dropWhile isWordChar
    if key.isEmpty then none
    else
      match rest.head? with
      | some c =>
        if pyIsSpace c then
          match rest.findIdx? (· = ';') with
          | some i => if 2 ≤ i then some (key, pyStrip (rest.take i)) else none
          | none => none
        else none
      | none => none

/-- The value conversion of `read_parameters` (lines 67-74): float when the
text contains `.` or `e`/`E`, int otherwise, raw string when the conversion
raises `ValueError`. -/
def pyConvert (v : List Char) : PyVal :=
  if v.any (fun c => c = '.') || v.any (fun c => c = 'e' || c = 'E') then
    match pyFloat? v with
    | some q => PyVal.float q
    | none => PyVal.str v
  else
    match pyInt? v with
    | some z => PyVal.int z
    | none => PyVal.str v

/-- `read_parameters` over file content, as the ordered list of parsed
entries (`params[key] = value` per matching line; the Python dict keeps the
last binding of a repeated key, so lookups use `paramsGet`). -/
def readParameters (content : List Char) : List (List Char × PyVal) :=
  (splitNl content).filterMap
    (fun l => (lineMatchKV? l).map (fun p => (p.1, pyConvert p.2)))

/-- Python dict lookup over the entry list: last binding wins. -/
def paramsGet (ps : List (List Char × PyVal)) (k : List Char) : Option PyVal :=
  (ps.reverse.find? (fun p => p.1 = k)).map (·.2)

/-- Numeric parameter snapshot used by `compute_derived_parameters`
(`params.get(key, default)` over number-valued entries). -/
abbrev QParams := List (List Char × ℚ)

def qGet (ps : QParams) (k : List Char) (dflt : ℚ) : ℚ :=
  ((ps.reverse.find? (fun p => p.1 = k)).map (·.2)).getD dflt

/-- `compute_derived_parameters` (lines 157-183): `derived = params.copy()`
plus the surface areas, the guarded `ratio_surface`, and the kinematic
viscosities.  (The `eta / rho` divisions are not guarded in the source; they
are modelled by total division on `ℚ`.) -/
def computeDerivedParameters (ps : QParams) : QParams :=
  let sPuit := qGet ps "x_puit".toList (8 / 10) * qGet ps "y_puit".toList (128 / 1000)
  let sBuse := qGet ps "x_buse".toList (3 / 10) * qGet ps "y_buse".toList (341 / 1000)
  let rho := qGet ps "rho_ink".toList 3000
  let eta0 := qGet ps "eta_0".toList (1 / 2)
  let etaInf := qGet ps "eta_inf".toList (167 / 1000)
  ps ++ [("S_puit".toList, sPuit), ("S_buse".toList, sBuse),
         ("ratio_surface".toList, if 0 < sPuit then sBuse / sPuit else 1),
         ("nu_0_calc".toList, eta0 / rho), ("nu_inf_calc".toList, etaInf / rho)]

/-! ### Structural lemmas about the substitution primitive -/

theorem dropLit_eq : ∀ (p l r : List Char), dropLit p l = some r → l = p ++ r
  | [], l, r, h => by
    simp only [dropLit, Option.some.injEq] at h
    subst h
    simp
  | _ :: _, [], _, h => by simp [dropLit] at h
  | p :: ps, c :: cs, r, h => by
    simp only [dropLit] at h
    split at h
    · rename_i hpc
      subst hpc
      simpa using dropLit_eq ps cs r h
    · exact Option.noConfusion h

theorem dropLit_self : ∀ (p l : List Char), dropLit p (p ++ l) = some l
  | [], _ => rfl
  | p :: ps, l => by simp [dropLit, dropLit_self ps l]

theorem takeWhile_append_all (p : Char → Bool) (xs ys : List Char)
    (h : ∀ x ∈ xs, p x = true) :
    (xs ++ ys).takeWhile p = xs ++ ys.takeWhile p := by
  induction xs with
  | nil => simp
  | cons a xs ih =>
    have ha : p a = true := h a (List.mem_cons_self a xs)
    simp [List.takeWhile_cons, ha, ih (fun x hx => h x (List.mem_cons_of_mem a hx))]

theorem dropWhile_append_all (p : Char → Bool) (xs ys : List Char)
    (h : ∀ x ∈ xs, p x = true) :
    (xs ++ ys).dropWhile p = ys.dropWhile p := by
  induction xs with
  | nil => simp
  | cons a xs ih =>
    have ha : p a = true := h a (List.mem_cons_self a xs)
    simp [List.dropWhile_cons, ha, ih (fun x hx => h x (List.mem_cons_of_mem a hx))]

theorem numClass_not_nl {c : Char} (h : isNumClass c = true) : c ≠ '\n' := by
  simp only [isNumClass, Bool.or_eq_true, decide_eq_true_eq] at h
  rcases h with ((((((((((((((h|h)|h)|h)|h)|h)|h)|h)|h)|h)|h)|h)|h)|h)|h) <;> subst h <;> decide

/-- Decomposition of a line matched by `splitKV`. -/
theorem splitKV_eq_some (vc : Char → Bool) (param line : List Char) (parts : KVParts)
    (h : splitKV vc param line = some parts) :
    line = param ++ parts.ws1 ++ parts.val ++ parts.ws2 ++ ';' :: parts.rest
    ∧ parts.ws1 ≠ [] ∧ (∀ c ∈ parts.ws1, pyIsSpace c = true)
    ∧ parts.val ≠ [] ∧ (∀ c ∈ parts.val, vc c = true)
    ∧ (∀ c ∈ parts.ws2, pyIsSpace c = true) := by
  unfold splitKV at h
  split at h
  · exact Option.noConfusion h
  · rename_i r1 hd
    split at h
    · exact Option.noConfusion h
    · split at h
      · exact Option.noConfusion h
      · rename_i hw1 hval
        split at h
        · rename_i rest hsemi
          injection h with h
          subst h
          refine ⟨?_, ?_, ?_, ?_, ?_, ?_⟩
          · have e1 : line = param ++ r1 := dropLit_eq _ _ _ hd
            have e2 : r1.takeWhile pyIsSpace ++ r1.dropWhile pyIsSpace = r1 :=
              List.takeWhile_append_dropWhile _ _
            have e3 : (r1.dropWhile pyIsSpace).takeWhile vc ++
                (r1.dropWhile pyIsSpace).dropWhile vc = r1.dropWhile pyIsSpace :=
              List.takeWhile_append_dropWhile _ _
            have e4 : ((r1.dropWhile pyIsSpace).dropWhile vc).takeWhile pyIsSpace ++
                ((r1.dropWhile pyIsSpace).dropWhile vc).dropWhile pyIsSpace =
                (r1.dropWhile pyIsSpace).dropWhile vc :=
              List.takeWhile_append_dropWhile _ _
            dsimp only
            rw [e1]
            simp only [List.append_assoc]
            rw [← hsemi, e4, e3, e2]
          · simpa [List.isEmpty_iff] using hw1
          · exact fun c hc => List.mem_takeWhile_imp hc
          · simpa [List.isEmpty_iff] using hval
          · exact fun c hc => List.mem_takeWhile_imp hc
          · exact fun c hc => List.mem_takeWhile_imp hc
        · exact Option.noConfusion h

/-- Rebuilding a well-formed statement line matches `splitKV` back on the
same parts. -/
theorem splitKV_build (vc : Char → Bool) (param v ws1 ws2 rest : List Char)
    (hw1ne : ws1 ≠ []) (hw1 : ∀ c ∈ ws1, pyIsSpace c = true)
    (hw2 : ∀ c ∈ ws2, pyIsSpace c = true)
    (hv : v ≠ []) (hvc : ∀ c ∈ v, vc c = true)
    (hdisj : ∀ c, vc c = true → pyIsSpace c = false)
    (hsemi : vc ';' = false) :
    splitKV vc param (param ++ ws1 ++ v ++ ws2 ++ ';' :: rest)
      = some ⟨ws1, v, ws2, rest⟩ := by
  have hvhead : ∃ v0 vs, v = v0 :: vs := by
    cases v with
    | nil => exact absurd rfl hv
    | cons v0 vs => exact ⟨v0, vs, rfl⟩
  obtain ⟨v0, vs, hveq⟩ := hvhead
  have hv0 : vc v0 = true := hvc v0 (hveq ▸ List.mem_cons_self v0 vs)
  unfold splitKV
  rw [show param ++ ws1 ++ v ++ ws2 ++ ';' :: rest
      = param ++ (ws1 ++ (v ++ (ws2 ++ ';' :: rest))) by simp [List.append_assoc]]
  rw [dropLit_self]
  dsimp only
  have e1 : (ws1 ++ (v ++ (ws2 ++ ';' :: rest))).takeWhile pyIsSpace = ws1 := by
    rw [takeWhile_append_all _ _ _ hw1, hveq]
    simp [List.takeWhile_cons, hdisj v0 hv0]
  have e2 : (ws1 ++ (v ++ (ws2 ++ ';' :: rest))).dropWhile pyIsSpace
      = v ++ (ws2 ++ ';' :: rest) := by
    rw [dropWhile_append_all _ _ _ hw1, hveq]
    simp [List.dropWhile_cons, hdisj v0 hv0]
  have e3 : (v ++ (ws2 ++ ';' :: rest)).takeWhile vc = v := by
    rw [takeWhile_append_all _ _ _ hvc]
    cases ws2 with
    | nil => simp [List.takeWhile_cons, hsemi]
    | cons w ws =>
      have hw : pyIsSpace w = true := hw2 w (List.mem_cons_self w ws)
      have : vc w = false := by
        cases hvw : vc w
        · rfl
        · exact absurd (hdisj w hvw) (by simp [hw])
      simp [List.takeWhile_cons, this]
  have e4 : (v ++ (ws2 ++ ';' :: rest)).dropWhile vc = ws2 ++ ';' :: rest := by
    rw [dropWhile_append_all _ _ _ hvc]
    cases ws2 with
    | nil => simp [List.dropWhile_cons, hsemi]
    | cons w ws =>
      have hw : pyIsSpace w = true := hw2 w (List.mem_cons_self w ws)
      have : vc w = false := by
        cases hvw : vc w
        · rfl
        · exact absurd (hdisj w hvw) (by simp [hw])
      simp [List.dropWhile_cons, this]
  have e5 : (ws2 ++ ';' :: rest).takeWhile pyIsSpace = ws2 := by
    rw [takeWhile_append_all _ _ _ hw2]
    simp [List.takeWhile_cons, pyIsSpace]
  have e6 : (ws2 ++ ';' :: rest).dropWhile pyIsSpace = ';' :: rest := by
    rw [dropWhile_append_all _ _ _ hw2]
    simp [List.dropWhile_cons, pyIsSpace]
  rw [e1, e2, e3, e4, e5, e6]
  have hw1e : ws1.isEmpty = false := by simpa [List.isEmpty_iff] using hw1ne
  have hve : v.isEmpty = false := by simpa [List.isEmpty_iff] using hv
  simp [hw1e, hve]

/-- A line produced by a successful substitution is a fixed point of the
same substitution (second runs rewrite it to itself). -/
theorem subLineKV_fixpoint (param v line l2 : List Char)
    (hv : v ≠ []) (hvc : ∀ c ∈ v, isNumClass c = true)
    (h : subLineKV isNumClass param v line = some l2) :
    subLineKV isNumClass param v l2 = some l2 := by
  unfold subLineKV at h ⊢
  cases hs : splitKV isNumClass param line with
  | none => rw [hs] at h; exact Option.noConfusion h
  | some parts =>
    rw [hs] at h
    obtain ⟨_, hw1ne, hw1, _, _, hw2⟩ := splitKV_eq_some _ _ _ _ hs
    have hl2 : param ++ parts.ws1 ++ v ++ parts.ws2 ++ ';' :: parts.rest = l2 := by
      simpa using h
    rw [← hl2,
      splitKV_build isNumClass param v parts.ws1 parts.ws2 parts.rest hw1ne hw1 hw2 hv hvc
        (fun c hc => numClass_not_space hc) rfl]
    rfl

/-- A substituted line contains no newline when the source line and the new
value contain none. -/
theorem subLineKV_no_nl (param v line l2 : List Char)
    (hline : '\n' ∉ line) (hvc : ∀ c ∈ v, isNumClass c = true)
    (h : subLineKV isNumClass param v line = some l2) : '\n' ∉ l2 := by
  unfold subLineKV at h
  cases hs : splitKV isNumClass param line with
  | none => rw [hs] at h; exact Option.noConfusion h
  | some parts =>
    rw [hs] at h
    obtain ⟨hdec, _, _, _, _, _⟩ := splitKV_eq_some _ _ _ _ hs
    have hl2 : param ++ parts.ws1 ++ v ++ parts.ws2 ++ ';' :: parts.rest = l2 := by
      simpa using h
    rw [← hl2]
    have hline2 : ¬('\n' ∈ param ∨ '\n' ∈ parts.ws1 ∨ '\n' ∈ parts.val ∨
        '\n' ∈ parts.ws2 ∨ '\n' = ';' ∨ '\n' ∈ parts.rest) := by
      rw [hdec] at hline
      simpa only [List.append_assoc, List.mem_append, List.mem_cons] using hline
    intro hmem
    simp only [List.append_assoc, List.mem_append, List.mem_cons] at hmem
    rcases hmem with hp | hw1 | hv' | hw2 | hsc | hr
    · exact hline2 (Or.inl hp)
    · exact hline2 (Or.inr (Or.inl hw1))
    · exact absurd rfl (numClass_not_nl (hvc _ hv'))
    · exact hline2 (Or.inr (Or.inr (Or.inr (Or.inl hw2))))
    · exact hline2 (Or.inr (Or.inr (Or.inr (Or.inr (Or.inl hsc)))))
    · exact hline2 (Or.inr (Or.inr (Or.inr (Or.inr (Or.inr hr)))))

/-- One `re.sub` pass is idempotent on content (for a value text drawn from
the value character class, as every value the runner writes is). -/
theorem reSubKV_idem (param v content : List Char) (hv : v ≠ [])
    (hvc : ∀ c ∈ v, isNumClass c = true) :
    reSubKV isNumClass param v (reSubKV isNumClass param v content)
      = reSubKV isNumClass param v content := by
  unfold reSubKV
  have hnonil : (splitNl content).map
      (fun l => (subLineKV isNumClass param v l).getD l) ≠ [] := by
    intro hc
    exact splitNl_ne_nil content (List.map_eq_nil_iff.1 hc)
  have hlineok : ∀ l2 ∈ (splitNl content).map
      (fun l => (subLineKV isNumClass param v l).getD l), '\n' ∉ l2 := by
    intro l2 hl2
    obtain ⟨l, hl, hl2eq⟩ := List.mem_map.1 hl2
    cases hs : subLineKV isNumClass param v l with
    | none => rw [hs] at hl2eq; simp at hl2eq; exact hl2eq ▸ splitNl_no_nl content l hl
    | some l3 =>
      rw [hs] at hl2eq; simp at hl2eq
      exact hl2eq ▸ subLineKV_no_nl param v l l3 (splitNl_no_nl content l hl) hvc hs
  rw [splitNl_joinNl _ hnonil hlineok]
  congr 1
  rw [List.map_map]
  refine List.map_congr_left ?_
  intro l _
  cases hs : subLineKV isNumClass param v l with
  | none => simp [Function.comp, hs]
  | some l3 =>
    have hfix := subLineKV_fixpoint param v l l3 hv hvc hs
    simp [Function.comp, hs, hfix]

/-- `find?` by key skips an entry with a different key. -/
theorem find?_key_cons_ne (k k2 : List Char) (v : ℚ) (l : List (List Char × ℚ))
    (h : ¬(k2 = k)) :
    List.find? (fun p => decide (p.1 = k)) ((k2, v) :: l)
      = List.find? (fun p => decide (p.1 = k)) l := by
  rw [List.find?_cons_of_neg]
  simp [h]

/-- `find?` by key hits an entry with that key. -/
theorem find?_key_cons_eq (k : List Char) (v : ℚ) (l : List (List Char × ℚ)) :
    List.find? (fun p => decide (p.1 = k)) ((k, v) :: l) = some (k, v) := by
  rw [List.find?_cons_of_pos]
  simp

/-! ### Claim theorems -/

/-- Claim C9: `read_parameters` is total (it is a Lean function, and the
embedded conversion has no failure path), and every line matching the
`key value;` pattern yields an entry whose value is parsed as a float when
the value text contains `.` or `e`/`E`, as an int otherwise, and is kept as
the raw string whenever the numeric conversion fails. -/
theorem c9_read_parameters_classification (content l k v : List Char)
    (hmem : l ∈ splitNl content) (hline : lineMatchKV? l = some (k, v)) :
    (k, pyConvert v) ∈ readParameters content
    ∧ pyConvert v =
        (if v.any (fun c => c = '.') || v.any (fun c => c = 'e' || c = 'E') then
          match pyFloat? v with
          | some q => PyVal.float q
          | none => PyVal.str v
        else
          match pyInt? v with
          | some z => PyVal.int z
          | none => PyVal.str v) := by
  refine ⟨?_, rfl⟩
  unfold readParameters
  exact List.mem_filterMap.2 ⟨l, hmem, by rw [hline]; rfl⟩

/-- Witness for C9: the line `rho_ink 3000;` of a concrete file yields the
integer entry 3000; a line whose value text has a `.` yields a float. -/
theorem c9_witness :
    ("rho_ink".toList, pyConvert "3000".toList) ∈
        readParameters "// header\nrho_ink 3000;\neta_0   0.5;".toList
    ∧ pyConvert "3000".toList =
        (if "3000".toList.any (fun c => c = '.') ||
            "3000".toList.any (fun c => c = 'e' || c = 'E') then
          match pyFloat? "3000".toList with
          | some q => PyVal.float q
          | none => PyVal.str "3000".toList
        else
          match pyInt? "3000".toList with
          | some z => PyVal.int z
          | none => PyVal.str "3000".toList) :=
  c9_read_parameters_classification "// header\nrho_ink 3000;\neta_0   0.5;".toList
    "rho_ink 3000;".toList "rho_ink".toList "3000".toList (by decide) (by decide)

/-- Claim C10: `compute_derived_parameters` is total and the surface-ratio
division is guarded: `ratio_surface` is `S_buse / S_puit` when `S_puit` is
positive and `1.0` otherwise, for every parameters dictionary. -/
theorem c10_ratio_surface_guard (ps : QParams) :
    qGet (computeDerivedParameters ps) "ratio_surface".toList 0
      = (if 0 < qGet ps "x_puit".toList (8 / 10) * qGet ps "y_puit".toList (128 / 1000)
         then (qGet ps "x_buse".toList (3 / 10) * qGet ps "y_buse".toList (341 / 1000))
              / (qGet ps "x_puit".toList (8 / 10) * qGet ps "y_puit".toList (128 / 1000))
         else 1) := by
  unfold computeDerivedParameters qGet
  dsimp only
  rw [List.reverse_append, List.find?_append]
  rw [show ∀ a b c d e : List Char × ℚ, List.reverse [a, b, c, d, e] = [e, d, c, b, a] from
    fun _ _ _ _ _ => by simp]
  rw [find?_key_cons_ne _ _ _ _ (by decide), find?_key_cons_ne _ _ _ _ (by decide),
    find?_key_cons_eq]
  rfl

/-- Counterexample for C4: `generate_alpha_with_config` interpolates the
CSV float directly, so angle input 34.6 writes the fractional value text
`34.6` into the `theta0` line — not an integer literal. -/
theorem c4_counterexample :
    genAlphaTheta0Value (173 / 5) = "34.6".toList
    ∧ genAlphaTheta0Line (173 / 5) = "        theta0          34.6;".toList
    ∧ '.' ∈ genAlphaTheta0Value (173 / 5) := by
  have h1 : genAlphaTheta0Value (173 / 5) = "34.6".toList := by with_unfolding_all rfl
  exact ⟨h1, by with_unfolding_all rfl, h1 ▸ (by decide)⟩

/-- Claim C4 (amended): the single-key path (`_modify_alpha_water`) truncates
every angle to an integer literal via `int()` (never containing a decimal
point), but the alpha-field generation path (`generate_alpha_with_config`)
writes the float input verbatim, which always contains a decimal point; the
two paths do not share one policy.  Instance: input 34.6 writes `34` in the
first path and `34.6` in the second. -/
theorem c4_degree_policy_divergence :
    (∀ angle : ℚ, '.' ∉ pyStrInt (pyIntTrunc angle))
    ∧ (∀ angle : ℚ, '.' ∈ genAlphaTheta0Value angle)
    ∧ pyStrInt (pyIntTrunc (173 / 5)) = "34".toList
    ∧ modifyAlphaWaterCA [("system/parameters", "CA_substrate 35;".toList)]
        "substrate".toList (173 / 5)
      = ([("system/parameters", "CA_substrate 34;".toList)],
         [Outcome.applied "CA_substrate".toList "34".toList]) :=
  ⟨fun _ => dot_not_mem_pyStrInt _, fun a => dot_mem_pyStrFloat a,
   by with_unfolding_all rfl, by with_unfolding_all rfl⟩

/-- Claim C2: for every dynamic viscosity `d` and density `r`,
`_modify_transport_properties` writes `d / r` formatted `:.6e` (normalized
scientific notation, 6 fractional digits) on the kinematic line `nu_0`, and
its log holds exactly one applied-substitution record; for `eta0 = 0.5`,
`rho = 3000` the written value text is `1.666667e-04`. -/
theorem c2_kinematic_conversion (fs : FS) (d r : ℚ) (content : List Char)
    (h : fsRead fs "system/parameters" = some content) :
    modifyTransportProperties fs RheoParam.eta0 d r
      = (fsWrite fs "system/parameters"
          (reSubKV isNumClass "nu_0".toList (fmt6e (d / r))
            (reSubKV isNumClass "eta_0".toList (pyStrFloat d) content)),
         [Outcome.appliedRheology "eta_0".toList (pyStrFloat d)
            "nu_0".toList (fmt6e (d / r))])
    ∧ fmt6e ((1 : ℚ) / 2 / 3000) = "1.666667e-04".toList
    ∧ modifyTransportProperties
        [("system/parameters", "eta_0   0.5;\nnu_0   1.0e-04;".toList)]
        RheoParam.eta0 (1 / 2) 3000
      = ([("system/parameters", "eta_0   0.5;\nnu_0   1.666667e-04;".toList)],
         [Outcome.appliedRheology "eta_0".toList "0.5".toList
            "nu_0".toList "1.666667e-04".toList]) := by
  refine ⟨?_, by with_unfolding_all rfl, by with_unfolding_all rfl⟩
  unfold modifyTransportProperties
  rw [h]
  rfl

/-- Witness for C2 at the concrete template file. -/
theorem c2_witness :
    modifyTransportProperties
        [("system/parameters", "eta_0   0.5;\nnu_0   1.0e-04;".toList)]
        RheoParam.eta0 (1 / 2) 3000
      = (fsWrite [("system/parameters", "eta_0   0.5;\nnu_0   1.0e-04;".toList)]
          "system/parameters"
          (reSubKV isNumClass "nu_0".toList (fmt6e ((1 : ℚ) / 2 / 3000))
            (reSubKV isNumClass "eta_0".toList (pyStrFloat (1 / 2))
              "eta_0   0.5;\nnu_0   1.0e-04;".toList)),
         [Outcome.appliedRheology "eta_0".toList (pyStrFloat (1 / 2))
            "nu_0".toList (fmt6e ((1 : ℚ) / 2 / 3000))])
    ∧ fmt6e ((1 : ℚ) / 2 / 3000) = "1.666667e-04".toList
    ∧ modifyTransportProperties
        [("system/parameters", "eta_0   0.5;\nnu_0   1.0e-04;".toList)]
        RheoParam.eta0 (1 / 2) 3000
      = ([("system/parameters", "eta_0   0.5;\nnu_0   1.666667e-04;".toList)],
         [Outcome.appliedRheology "eta_0".toList "0.5".toList
            "nu_0".toList "1.666667e-04".toList]) :=
  c2_kinematic_conversion [("system/parameters", "eta_0   0.5;\nnu_0   1.0e-04;".toList)]
    (1 / 2) 3000 "eta_0   0.5;\nnu_0   1.0e-04;".toList (by decide)

/-- Counterexample for C3: setting `y_buse` to 0.0001 writes `y_buse 0.0001;`
but `y_buse_top` becomes `0.198` (3-decimal formatting of 0.1981), which does
not equal base + h = 0.1981 — the claim's equality fails for this `h`. -/
theorem c3_counterexample :
    modifyGeometry [("system/parameters",
        "y_buse 0.341;\ny_buse_bottom 0.198;\ny_buse_top 0.539;".toList)]
        "y_buse" (1 / 10000)
      = Except.ok ([("system/parameters",
          "y_buse 0.0001;\ny_buse_bottom 0.198;\ny_buse_top 0.198;".toList)],
         [Outcome.applied "y_buse".toList "0.0001".toList])
    ∧ pyFloat? "0.198".toList = some (99 / 500)
    ∧ (99 / 500 : ℚ) ≠ 198 / 1000 + 1 / 10000 := by
  refine ⟨by with_unfolding_all rfl, by with_unfolding_all rfl, by norm_num⟩

/-- Claim C3 (amended): after a pass that changes `y_buse` to `h`, the
dependent `y_buse_top` is written as `y_buse_bottom + h` formatted to 3
decimal places and `y_buse_top_m` as `(y_buse_bottom + h) × 1e-3` formatted
to 6 decimal places (equal to the exact values whenever they fit in that many
decimals); for the literal instance base = 0.198, h = 0.4 the written texts
are `0.598` and `0.000598`. -/
theorem c3_derived_recalculation (fs : FS) (content : List Char) (h : ℚ)
    (btext : List Char) (b : ℚ)
    (hfs : fsRead fs "system/parameters" = some content)
    (hfind : findKVValue? "y_buse_bottom".toList
        (reSubKV isNumClass "y_buse".toList (pyStrFloat h) content) = some btext)
    (hparse : pyFloat? btext = some b) :
    modifyGeometry fs "y_buse" h
      = Except.ok (fsWrite fs "system/parameters"
          (reSubKV isNumClass "y_ink_top_m".toList (fmtFixed 6 ((b + h) * (1 / 1000)))
            (reSubKV isNumClass "y_ink_top".toList (fmtFixed 3 (b + h))
              (reSubKV isNumClass "y_ink".toList (fmtFixed 3 h)
                (reSubKV isNumClass "y_buse_top_m".toList (fmtFixed 6 ((b + h) * (1 / 1000)))
                  (reSubKV isNumClass "y_buse_top".toList (fmtFixed 3 (b + h))
                    (reSubKV isNumClass "y_buse".toList (pyStrFloat h) content)))))),
         [Outcome.applied "y_buse".toList (pyStrFloat h)])
    ∧ fmtFixed 3 ((198 : ℚ) / 1000 + 2 / 5) = "0.598".toList
    ∧ fmtFixed 6 (((198 : ℚ) / 1000 + 2 / 5) * (1 / 1000)) = "0.000598".toList := by
  refine ⟨?_, by with_unfolding_all rfl, by with_unfolding_all rfl⟩
  unfold modifyGeometry
  rw [hfs]
  dsimp only
  rw [if_neg (by decide : ¬("y_buse" = "ratio_surface")), if_pos rfl, hfind]
  dsimp only
  rw [hparse]

/-- Witness for C3 at the literal instance base = 0.198, h = 0.4. -/
theorem c3_witness :
    modifyGeometry [("system/parameters",
        ("y_buse 0.341;\ny_buse_bottom 0.198;\ny_buse_top 0.539;\n" ++
         "y_buse_top_m 0.000539;\ny_ink 0.341;\ny_ink_top 0.539;\ny_ink_top_m 0.000539;").toList)]
        "y_buse" (2 / 5)
      = Except.ok (fsWrite [("system/parameters",
          ("y_buse 0.341;\ny_buse_bottom 0.198;\ny_buse_top 0.539;\n" ++
           "y_buse_top_m 0.000539;\ny_ink 0.341;\ny_ink_top 0.539;\ny_ink_top_m 0.000539;").toList)]
          "system/parameters"
          (reSubKV isNumClass "y_ink_top_m".toList
            (fmtFixed 6 (((99 : ℚ) / 500 + 2 / 5) * (1 / 1000)))
            (reSubKV isNumClass "y_ink_top".toList (fmtFixed 3 ((99 : ℚ) / 500 + 2 / 5))
              (reSubKV isNumClass "y_ink".toList (fmtFixed 3 (2 / 5))
                (reSubKV isNumClass "y_buse_top_m".toList
                  (fmtFixed 6 (((99 : ℚ) / 500 + 2 / 5) * (1 / 1000)))
                  (reSubKV isNumClass "y_buse_top".toList (fmtFixed 3 ((99 : ℚ) / 500 + 2 / 5))
                    (reSubKV isNumClass "y_buse".toList (pyStrFloat (2 / 5))
                      ("y_buse 0.341;\ny_buse_bottom 0.198;\ny_buse_top 0.539;\n" ++
                       "y_buse_top_m 0.000539;\ny_ink 0.341;\ny_ink_top 0.539;\ny_ink_top_m 0.000539;").toList)))))),
         [Outcome.applied "y_buse".toList (pyStrFloat (2 / 5))])
    ∧ fmtFixed 3 ((198 : ℚ) / 1000 + 2 / 5) = "0.598".toList
    ∧ fmtFixed 6 (((198 : ℚ) / 1000 + 2 / 5) * (1 / 1000)) = "0.000598".toList :=
  c3_derived_recalculation _ _ (2 / 5) "0.198".toList ((99 : ℚ) / 500) (by decide)
    (by with_unfolding_all rfl) (by with_unfolding_all rfl)

/-- Counterexample for C5: a key present on two candidate lines triggers a
replacement on BOTH lines (the runner's `re.sub` has no count limit), not
only on the first. -/
theorem c5_counterexample :
    modifyControlDict [("system/parameters", "deltaT 1;\ndeltaT 2;".toList)]
        "deltaT".toList "3".toList
      = ([("system/parameters", "deltaT 3;\ndeltaT 3;".toList)],
         [Outcome.applied "deltaT".toList "3".toList])
    ∧ "deltaT 3;\ndeltaT 3;".toList ≠ "deltaT 3;\ndeltaT 2;".toList :=
  ⟨by decide, by decide⟩

/-- Claim C5 (amended): the pass maps every line independently, so each line
receives at most one value substitution (non-matching lines are copied
byte-identically), but a requested key whose statement appears on several
candidate lines is substituted on every such line, not only the first. -/
theorem c5_per_line_substitution (param v content : List Char) :
    reSubKV isNumClass param v content
      = joinNl ((splitNl content).map fun l => (subLineKV isNumClass param v l).getD l)
    ∧ ∀ l ∈ splitNl content,
        (subLineKV isNumClass param v l = none →
          (subLineKV isNumClass param v l).getD l = l)
        ∧ ∀ parts, splitKV isNumClass param l = some parts →
            (subLineKV isNumClass param v l).getD l
              = param ++ parts.ws1 ++ v ++ parts.ws2 ++ ';' :: parts.rest := by
  refine ⟨rfl, fun l _ => ⟨fun hnone => by rw [hnone]; rfl, fun parts hp => by
    unfold subLineKV
    rw [hp]
    rfl⟩⟩

/-- Witness for C5: the second `deltaT` line of a two-line file is itself
substituted by the pass. -/
theorem c5_witness :
    (subLineKV isNumClass "deltaT".toList "3".toList "deltaT 2;".toList).getD
        "deltaT 2;".toList = "deltaT 3;".toList := by
  have h := (c5_per_line_substitution "deltaT".toList "3".toList
      "deltaT 1;\ndeltaT 2;".toList).2 "deltaT 2;".toList (by decide)
  exact (h.2 ⟨[' '], ['2'], [], []⟩ (by decide)).trans (by decide)

/-- Counterexample for C6: `_modify_surface_tension` on a case directory
without `constant/transportProperties` is a no-op whose log is EMPTY — no
file-not-found condition is reported, contradicting the claim. -/
theorem c6_counterexample :
    modifySurfaceTension [("system/parameters", "sigma 0.04;".toList)] "0.05".toList
      = ([("system/parameters", "sigma 0.04;".toList)], []) := by decide

/-- Claim C6 (amended): a substitution whose target file is missing is a
no-op that raises no exception and leaves every other file's pending
substitutions unaffected (the case directory is returned unchanged); the
parameters-file paths log a file-not-found record, but the surface-tension
path returns silently with an empty log. -/
theorem c6_missing_file_noop (fs : FS) (v param : List Char) (path : String)
    (hst : fsRead fs "constant/transportProperties" = none)
    (hcd : fsRead fs "system/parameters" = none)
    (hgui : fsRead fs path = none) :
    modifySurfaceTension fs v = (fs, [])
    ∧ modifyControlDict fs param v = (fs, [Outcome.fileNotFound "system/parameters"])
    ∧ applyParamsLineByLine fs path [(param, v)]
        = Except.ok (fs, [Outcome.fileNotFound path]) := by
  refine ⟨?_, ?_, ?_⟩
  · unfold modifySurfaceTension
    rw [hst]
  · unfold modifyControlDict
    rw [hcd]
  · unfold applyParamsLineByLine
    rw [hgui]

/-- Witness for C6 on a one-file case directory missing all three targets. -/
theorem c6_witness :
    modifySurfaceTension [("0/alpha.water", "x 1;".toList)] "0.05".toList
      = ([("0/alpha.water", "x 1;".toList)], [])
    ∧ modifyControlDict [("0/alpha.water", "x 1;".toList)] "endTime".toList "0.2".toList
      = ([("0/alpha.water", "x 1;".toList)], [Outcome.fileNotFound "system/parameters"])
    ∧ applyParamsLineByLine [("0/alpha.water", "x 1;".toList)] "system/controlDict"
        [("endTime".toList, "0.2".toList)]
      = Except.ok ([("0/alpha.water", "x 1;".toList)],
          [Outcome.fileNotFound "system/controlDict"]) :=
  c6_missing_file_noop [("0/alpha.water", "x 1;".toList)] "0.2".toList "endTime".toList
    "system/controlDict" (by decide) (by decide) (by decide)

/-- Counterexample for C7: running the same `endTime` substitution twice
leaves the content fixed, but the second run's log reports the key as NOT
FOUND (the code detects application by content change), not as applied. -/
theorem c7_counterexample :
    modifyControlDict [("system/parameters", "endTime 0.1;".toList)]
        "endTime".toList "0.2".toList
      = ([("system/parameters", "endTime 0.2;".toList)],
         [Outcome.applied "endTime".toList "0.2".toList])
    ∧ modifyControlDict [("system/parameters", "endTime 0.2;".toList)]
        "endTime".toList "0.2".toList
      = ([("system/parameters", "endTime 0.2;".toList)],
         [Outcome.notFound "endTime".toList]) :=
  ⟨by decide, by decide⟩

/-- Claim C7 (amended): rerunning the same substitution with identical inputs
leaves the file content identical to the state after the first run (content
idempotence, for any value text drawn from the numeric value class), but the
second run's outcome log reports the key as not found rather than applied. -/
theorem c7_rerun_content_idempotent (fs : FS) (param v : List Char)
    (hv : v ≠ []) (hvc : ∀ c ∈ v, isNumClass c = true) :
    (modifyControlDict (modifyControlDict fs param v).1 param v).1
      = (modifyControlDict fs param v).1
    ∧ (∀ content, fsRead fs "system/parameters" = some content →
        (modifyControlDict (modifyControlDict fs param v).1 param v).2
          = [Outcome.notFound param]) := by
  cases hr : fsRead fs "system/parameters" with
  | none =>
    have h1 : modifyControlDict fs param v
        = (fs, [Outcome.fileNotFound "system/parameters"]) := by
      unfold modifyControlDict
      rw [hr]
    refine ⟨?_, fun content hc => ?_⟩
    · rw [h1]
      dsimp only
      rw [h1]
    · exact Option.noConfusion hc
  | some content =>
    by_cases hch : reSubKV isNumClass param v content = content
    · have h1 : modifyControlDict fs param v = (fs, [Outcome.notFound param]) := by
        unfold modifyControlDict
        rw [hr]
        dsimp only
        rw [if_neg (not_not_intro hch)]
      refine ⟨?_, fun content2 hc2 => ?_⟩
      · rw [h1]
        dsimp only
        rw [h1]
      · rw [h1]
        dsimp only
        rw [h1]
    · have h1 : modifyControlDict fs param v
          = (fsWrite fs "system/parameters" (reSubKV isNumClass param v content),
             [Outcome.applied param v]) := by
        unfold modifyControlDict
        rw [hr]
        dsimp only
        rw [if_pos hch]
      have h2 : fsRead (fsWrite fs "system/parameters"
          (reSubKV isNumClass param v content)) "system/parameters"
          = some (reSubKV isNumClass param v content) :=
        fsRead_fsWrite_self fs "system/parameters" (reSubKV isNumClass param v content)
      have hidem := reSubKV_idem param v content hv hvc
      have h3 : modifyControlDict
          (fsWrite fs "system/parameters" (reSubKV isNumClass param v content)) param v
          = (fsWrite fs "system/parameters" (reSubKV isNumClass param v content),
             [Outcome.notFound param]) := by
        unfold modifyControlDict
        rw [h2]
        dsimp only
        rw [if_neg (not_not_intro hidem)]
      refine ⟨?_, fun content2 hc2 => ?_⟩
      · rw [h1]
        dsimp only
        rw [h3]
      · rw [h1]
        dsimp only
        rw [h3]

/-- Witness for C7 on a concrete `endTime` rerun. -/
theorem c7_witness :
    (modifyControlDict (modifyControlDict [("system/parameters", "endTime 0.1;".toList)]
        "endTime".toList "0.2".toList).1 "endTime".toList "0.2".toList).1
      = (modifyControlDict [("system/parameters", "endTime 0.1;".toList)]
          "endTime".toList "0.2".toList).1
    ∧ (modifyControlDict (modifyControlDict [("system/parameters", "endTime 0.1;".toList)]
        "endTime".toList "0.2".toList).1 "endTime".toList "0.2".toList).2
      = [Outcome.notFound "endTime".toList] := by
  have h := c7_rerun_content_idempotent [("system/parameters", "endTime 0.1;".toList)]
    "endTime".toList "0.2".toList (by decide) (by decide)
  exact ⟨h.1, h.2 "endTime 0.1;".toList (by decide)⟩

/-- Claim C1 (code bug): `gui.py:99` appends the never-bound name `new_line`
right after the substituted line, so `_apply_params_line_by_line` raises
`NameError` on the first matched line and no substitution pass that matches a
key can complete (the claim's frame property is the evident intent); a pass
with no matching key still completes, rewriting the file unchanged. -/
theorem c1_gui_line_pass_crashes :
    applyParamsLineByLine [("system/controlDict", "endTime         0.1;".toList)]
        "system/controlDict" [("endTime".toList, "0.2".toList)]
      = Except.error "NameError: name new_line is not defined"
    ∧ applyParamsLineByLine [("system/controlDict", "endTime         0.1;".toList)]
        "system/controlDict" [("zzz".toList, "0.2".toList)]
      = Except.ok ([("system/controlDict", "endTime         0.1;".toList)],
          [Outcome.notFound "zzz".toList]) :=
  ⟨rfl, rfl⟩

/-- Claim C8 (code bug; the scanner as intended, with the stray token of
`gui.py:169` removed): on a concrete alpha file, the scan enters a block
exactly on a line whose stripped text equals the requested surface name,
replaces the `theta0` line inside it by the fixed-format truncated-angle
line, leaves the block on the closing brace, and copies every line of the
non-requested `substrate` block and all structural lines unchanged. -/
theorem c8_intended_scan_behavior :
    alphaScanGo [("wall_isolant_left".toList, 120)] false none
        (splitNl ("boundaryField\n\x7b\n    wall_isolant_left\n    \x7b\n        type            contactAngle;\n        theta0          90;\n        limit           gradient;\n    \x7d\n    substrate\n    \x7b\n        theta0          35;\n    \x7d\n\x7d").toList)
      = splitNl ("boundaryField\n\x7b\n    wall_isolant_left\n    \x7b\n        type            contactAngle;\n        theta0          120;\n        limit           gradient;\n    \x7d\n    substrate\n    \x7b\n        theta0          35;\n    \x7d\n\x7d").toList := by
  with_unfolding_all rfl

end AgClVof
